import Mathlib

/-!
Verification development for the DocPilot workspace membership and
document-consistency core.  The definitions below are shallow embeddings of
the TypeScript source (services/workspaceService.ts, components/
WorkspaceManagement.tsx, components/PendingInvitations.tsx (MarkdownEditor),
components/GitStyleDiff.tsx, hooks/useFileHistory.ts, the invite page, and
the Supabase schema migrations).  The backing store is modelled as a record
of row lists; each single-statement insert/update/delete is modelled as an
atomic pure transformation, and fallible steps take explicit failure flags.
-/

namespace DocPilot

/-- Collaborator / invitation role, per the SQL CHECK constraint
(role IN ('owner', 'editor', 'viewer')). -/
inductive Role where
  | owner
  | editor
  | viewer
deriving DecidableEq, Repr

/-- Invitation status, per the SQL CHECK constraint
(status IN ('pending', 'accepted', 'declined', 'expired')). -/
inductive InvStatus where
  | pending
  | accepted
  | declined
  | expired
deriving DecidableEq, Repr

/-- Row of public.users (fields used by the embedded operations). -/
structure UserRow where
  id : String
  email : String
deriving DecidableEq, Repr

/-- Row of public.workspaces (fields used by the embedded operations). -/
structure WorkspaceRow where
  id : String
  owner_id : String
deriving DecidableEq, Repr

/-- Row of public.files (fields used by the embedded operations). -/
structure FileRow where
  id : String
  workspace_id : String
  content : String
deriving DecidableEq, Repr

/-- Row of public.file_versions (fields used by the embedded operations). -/
structure FileVersionRow where
  file_id : String
  content : String
  version_number : Nat
  created_by : String
deriving DecidableEq, Repr

/-- Row of public.chat_messages (fields used by the embedded operations). -/
structure ChatMessageRow where
  workspace_id : String
  sender_id : String
  content : String
  is_ai : Bool
deriving DecidableEq, Repr

/-- Row of public.workspace_activity (only the parent id matters here). -/
structure ActivityRow where
  workspace_id : String
deriving DecidableEq, Repr

/-- Row of public.workspace_requests (only the parent id matters here). -/
structure RequestRow where
  workspace_id : String
deriving DecidableEq, Repr

/-- Row of public.workspace_invitations. -/
structure InvitationRow where
  id : String
  workspace_id : String
  inviter_id : String
  invitee_email : String
  invitee_id : Option String
  role : Role
  status : InvStatus
  invitation_token : String
  expires_at : Nat
deriving DecidableEq, Repr

/-- Row of public.collaborators (UNIQUE(workspace_id, user_id) in the schema). -/
structure CollaboratorRow where
  workspace_id : String
  user_id : String
  role : Role
deriving DecidableEq, Repr

/-- The backing store: one list of rows per table. -/
structure DB where
  users : List UserRow
  workspaces : List WorkspaceRow
  files : List FileRow
  file_versions : List FileVersionRow
  chat_messages : List ChatMessageRow
  workspace_activity : List ActivityRow
  workspace_requests : List RequestRow
  workspace_invitations : List InvitationRow
  collaborators : List CollaboratorRow
deriving DecidableEq, Repr

/-- The empty store. -/
def emptyDB : DB := ⟨[], [], [], [], [], [], [], [], []⟩

/-! ## Line diff (GitStyleDiff.tsx, generateDiff) -/

/-- Kind of an emitted diff line ('added' | 'removed' | 'unchanged'). -/
inductive DiffType where
  | added
  | removed
  | unchanged
deriving DecidableEq, Repr

/-- One emitted diff entry (interface DiffLine); absent line numbers are
modelled as none. -/
structure DiffLine where
  kind : DiffType
  content : String
  oldLineNumber : Option Nat
  newLineNumber : Option Nat
deriving DecidableEq, Repr

/-- Loop body of generateDiff: walks both line lists in step, carrying the
old/new line counters exactly as the indexed for-loop does (the counter for a
side only advances when that side still has a line at the current index). -/
def diffAux : List String → List String → Nat → Nat → List DiffLine
  | [], [], _, _ => []
  | o :: os, [], oldN, newN =>
      ⟨.removed, o, some oldN, none⟩ :: diffAux os [] (oldN + 1) newN
  | [], m :: ms, oldN, newN =>
      ⟨.added, m, none, some newN⟩ :: diffAux [] ms oldN (newN + 1)
  | o :: os, m :: ms, oldN, newN =>
      if o = m then
        ⟨.unchanged, o, some oldN, some newN⟩ :: diffAux os ms (oldN + 1) (newN + 1)
      else
        ⟨.removed, o, some oldN, none⟩ ::
          ⟨.added, m, none, some newN⟩ :: diffAux os ms (oldN + 1) (newN + 1)

/-- generateDiff(original, modified): split on newlines and run the
line-by-line loop with both counters starting at 1. -/
def generateDiff (original modified : String) : List DiffLine :=
  diffAux (original.splitOn "\n") (modified.splitOn "\n") 1 1

/-- Modelled from the spec wording of the diff contract: what a single line
position must emit, given the (optional) old and new lines at that position
and their 1-based line numbers. -/
def diffEmit (o? m? : Option String) (oldN newN : Nat) : List DiffLine :=
  match o?, m? with
  | some o, some m =>
      if o = m then [⟨.unchanged, o, some oldN, some newN⟩]
      else [⟨.removed, o, some oldN, none⟩, ⟨.added, m, none, some newN⟩]
  | some o, none => [⟨.removed, o, some oldN, none⟩]
  | none, some m => [⟨.added, m, none, some newN⟩]
  | none, none => []

/-- Modelled from the spec wording: the whole diff is the per-position
emission, in position order, over max(#old lines, #new lines) positions. -/
def specLineDiff (original modified : String) : List DiffLine :=
  let os := original.splitOn "\n"
  let ms := modified.splitOn "\n"
  (List.range (max os.length ms.length)).flatMap fun i =>
    diffEmit os[i]? ms[i]? (i + 1) (i + 1)

/-! ## Workspace deletion (services/workspaceService.ts, deleteWorkspace) -/

/-- Result shape of deleteWorkspace: { success, message }. -/
structure DeleteResult where
  success : Bool
  message : String
deriving DecidableEq, Repr

/-- Failure flags, one per fallible store call inside deleteWorkspace, in the
order the calls are issued. -/
structure DeleteFailures where
  fetchWorkspace : Bool
  fetchFiles : Bool
  delFileVersions : Bool
  delFiles : Bool
  delChat : Bool
  delActivity : Bool
  delInvitations : Bool
  delRequests : Bool
  delCollaborators : Bool
  delWorkspace : Bool
deriving DecidableEq, Repr

/-- The schedule in which every store call succeeds. -/
def noDeleteFailures : DeleteFailures :=
  ⟨false, false, false, false, false, false, false, false, false, false⟩

def msgFetchWorkspace : String := "Failed to fetch workspace"
def msgNotOwner : String := "Only the owner can delete a workspace"
def msgFetchFiles : String := "Failed to fetch workspace files"
def msgDelFileVersions : String := "Failed to delete file versions"
def msgDelFiles : String := "Failed to delete files"
def msgDelChat : String := "Failed to delete chat messages"
def msgDelActivity : String := "Failed to delete workspace activity"
def msgDelInvitations : String := "Failed to delete workspace invitations"
def msgDelRequests : String := "Failed to delete workspace requests"
def msgDelCollaborators : String := "Failed to delete collaborators"
def msgDelWorkspace : String := "Failed to delete workspace row"
def msgWorkspaceNotFound : String := "Workspace not found or no permission to delete it"
def msgDeleteSuccess : String := "Workspace deleted successfully"

/-- Step 1 of the cascade: delete file_versions whose file_id is among the
workspace's files; the code only issues this delete when the workspace has
at least one file. -/
def removeFileVersionsOf (db : DB) (wid : String) : DB :=
  let fileIds := (db.files.filter fun fi => fi.workspace_id == wid).map fun fi => fi.id
  if fileIds.isEmpty then db
  else { db with file_versions := db.file_versions.filter fun v => !(fileIds.contains v.file_id) }

/-- Step 2: delete files by workspace_id. -/
def removeFilesOf (db : DB) (wid : String) : DB :=
  { db with files := db.files.filter fun fi => !(fi.workspace_id == wid) }

/-- Step 3: delete chat_messages by workspace_id. -/
def removeChatOf (db : DB) (wid : String) : DB :=
  { db with chat_messages := db.chat_messages.filter fun m => !(m.workspace_id == wid) }

/-- Step 4: delete workspace_activity by workspace_id. -/
def removeActivityOf (db : DB) (wid : String) : DB :=
  { db with workspace_activity := db.workspace_activity.filter fun a => !(a.workspace_id == wid) }

/-- Step 5: delete workspace_invitations by workspace_id. -/
def removeInvitationsOf (db : DB) (wid : String) : DB :=
  { db with workspace_invitations := db.workspace_invitations.filter fun i => !(i.workspace_id == wid) }

/-- Step 6: delete workspace_requests by workspace_id. -/
def removeRequestsOf (db : DB) (wid : String) : DB :=
  { db with workspace_requests := db.workspace_requests.filter fun r => !(r.workspace_id == wid) }

/-- Step 7: delete collaborators by workspace_id. -/
def removeCollaboratorsOf (db : DB) (wid : String) : DB :=
  { db with collaborators := db.collaborators.filter fun c => !(c.workspace_id == wid) }

/-- Step 8: delete the workspace row itself, with the extra owner_id filter
the code adds to the final delete. -/
def removeWorkspaceRow (db : DB) (wid uid : String) : DB :=
  { db with workspaces := db.workspaces.filter fun w => !(w.id == wid && w.owner_id == uid) }

/-- State of the store after step 1 of the cascade. -/
def cascadeToFileVersions (db : DB) (wid : String) : DB := removeFileVersionsOf db wid

/-- State after steps 1-2. -/
def cascadeToFiles (db : DB) (wid : String) : DB :=
  removeFilesOf (cascadeToFileVersions db wid) wid

/-- State after steps 1-3. -/
def cascadeToChat (db : DB) (wid : String) : DB :=
  removeChatOf (cascadeToFiles db wid) wid

/-- State after steps 1-4. -/
def cascadeToActivity (db : DB) (wid : String) : DB :=
  removeActivityOf (cascadeToChat db wid) wid

/-- State after steps 1-5. -/
def cascadeToInvitations (db : DB) (wid : String) : DB :=
  removeInvitationsOf (cascadeToActivity db wid) wid

/-- State after steps 1-6. -/
def cascadeToRequests (db : DB) (wid : String) : DB :=
  removeRequestsOf (cascadeToInvitations db wid) wid

/-- State after steps 1-7. -/
def cascadeToCollaborators (db : DB) (wid : String) : DB :=
  removeCollaboratorsOf (cascadeToRequests db wid) wid

/-- The full cascade applied in order, ending with the workspace row. -/
def cleanCascade (db : DB) (wid uid : String) : DB :=
  removeWorkspaceRow (cascadeToCollaborators db wid) wid uid

/-- deleteWorkspace(workspaceId, userId): ownership is verified first, then
the eight dependent deletes run in the fixed order, each returning early with
a step-specific message if its store call fails. -/
def deleteWorkspace (db : DB) (workspaceId userId : String) (f : DeleteFailures) :
    DeleteResult × DB :=
  if f.fetchWorkspace then (⟨false, msgFetchWorkspace⟩, db) else
  match db.workspaces.find? fun w => w.id == workspaceId with
  | none => (⟨false, msgFetchWorkspace⟩, db)
  | some w =>
    if w.owner_id != userId then (⟨false, msgNotOwner⟩, db) else
    if f.fetchFiles then (⟨false, msgFetchFiles⟩, db) else
    if !(db.files.filter fun fi => fi.workspace_id == workspaceId).isEmpty && f.delFileVersions then
      (⟨false, msgDelFileVersions⟩, db) else
    if f.delFiles then (⟨false, msgDelFiles⟩, cascadeToFileVersions db workspaceId) else
    if f.delChat then (⟨false, msgDelChat⟩, cascadeToFiles db workspaceId) else
    if f.delActivity then (⟨false, msgDelActivity⟩, cascadeToChat db workspaceId) else
    if f.delInvitations then (⟨false, msgDelInvitations⟩, cascadeToActivity db workspaceId) else
    if f.delRequests then (⟨false, msgDelRequests⟩, cascadeToInvitations db workspaceId) else
    if f.delCollaborators then (⟨false, msgDelCollaborators⟩, cascadeToRequests db workspaceId) else
    if f.delWorkspace then (⟨false, msgDelWorkspace⟩, cascadeToCollaborators db workspaceId) else
    if ((cascadeToCollaborators db workspaceId).workspaces.filter fun w2 =>
        w2.id == workspaceId && w2.owner_id == userId).isEmpty then
      (⟨false, msgWorkspaceNotFound⟩, cleanCascade db workspaceId userId)
    else (⟨true, msgDeleteSuccess⟩, cleanCascade db workspaceId userId)

/-! ## Invitations (WorkspaceManagement.tsx, InvitePage, PendingInvitations) -/

/-- Result of sendInvitation. -/
inductive SendResult where
  | ok
  | alreadyMember
  | duplicateInvitation
deriving DecidableEq, Repr

/-- Lowercasing of the invite address (inviteEmail.toLowerCase()), modelled
character-wise over the string's characters. -/
def toLowerStr (s : String) : String := ⟨s.data.map Char.toLower⟩

/-- The already-a-collaborator test in sendInvitation: resolve the invitee
email to a user id, then look for a collaborator row of this workspace with
that user id (a missing user resolves to no row). -/
def emailIsCollaborator (db : DB) (wid email : String) : Bool :=
  match db.users.find? fun u => u.email == email with
  | none => false
  | some u => db.collaborators.any fun c => c.workspace_id == wid && c.user_id == u.id

/-- The row sendInvitation inserts, with the column defaults of the
workspace_invitations schema (status pending, expires_at now + 7 days). -/
def newInvitationRow (wid inviterId email : String) (role : Role) (now : Nat)
    (newId newToken : String) : InvitationRow :=
  ⟨newId, wid, inviterId, email, none, role, .pending, newToken, now + 7 * 24 * 60 * 60⟩

/-- sendInvitation: lowercase the email, fail if the address is already a
collaborator, fail on a pending unexpired invitation for (workspace, email),
delete any other existing invitation row for the pair, then insert the new
pending row. -/
def sendInvitation (db : DB) (wid inviterId inviteEmailInput : String) (role : Role)
    (now : Nat) (newId newToken : String) : SendResult × DB :=
  let email := toLowerStr inviteEmailInput
  if emailIsCollaborator db wid email then (.alreadyMember, db)
  else
    match db.workspace_invitations.find? fun i =>
        i.workspace_id == wid && i.invitee_email == email with
    | some inv =>
        if inv.status == .pending && now < inv.expires_at then (.duplicateInvitation, db)
        else
          let db1 := { db with workspace_invitations :=
            db.workspace_invitations.filter fun i => !(i.id == inv.id) }
          (.ok, { db1 with workspace_invitations :=
            db1.workspace_invitations ++ [newInvitationRow wid inviterId email role now newId newToken] })
    | none =>
        (.ok, { db with workspace_invitations :=
          db.workspace_invitations ++ [newInvitationRow wid inviterId email role now newId newToken] })

/-- The invitation update both accept paths issue first: set status accepted
and invitee_id for the row with the given id. -/
def acceptUpd (db : DB) (invId userId : String) : DB :=
  { db with workspace_invitations := db.workspace_invitations.map fun i =>
      if i.id == invId then { i with status := .accepted, invitee_id := some userId } else i }

/-- acceptInvitation of WorkspaceManagement.tsx: update the invitation row,
re-fetch it, insert the collaborator row; any insert error (including the
uniqueness violation, error code 23505) is thrown and surfaced as a failure.
Returns true on the success path. -/
def acceptInvitationWM (db : DB) (invId userId : String) : Bool × DB :=
  let db1 := acceptUpd db invId userId
  match db1.workspace_invitations.find? fun i => i.id == invId with
  | none => (false, db1)
  | some inv =>
      if db1.collaborators.any fun c => c.workspace_id == inv.workspace_id && c.user_id == userId then
        (false, db1)
      else
        (true, { db1 with collaborators :=
          db1.collaborators ++ [⟨inv.workspace_id, userId, inv.role⟩] })

/-- declineInvitation of WorkspaceManagement.tsx: set status declined for the
row with the given id, with no status or expiry precondition. -/
def declineInvitationWM (db : DB) (invId : String) : Bool × DB :=
  (true, { db with workspace_invitations := db.workspace_invitations.map fun i =>
      if i.id == invId then { i with status := .declined } else i })

/-- Outcome of the invite-page accept (part_006 acceptInvitation). -/
inductive IPOutcome where
  | accepted
  | acceptedAlreadyMember
  | emailMismatch
deriving DecidableEq, Repr

/-- acceptInvitation of the token-addressed invite page: bail out before any
write when the signed-in email differs from the invited address; otherwise
update the invitation then insert the collaborator row, treating the
uniqueness violation (23505) as the already-a-member success case. -/
def acceptInvitationIP (db : DB) (inv : InvitationRow) (userEmail userId : String) :
    IPOutcome × DB :=
  if userEmail != inv.invitee_email then (.emailMismatch, db)
  else
    let db1 := acceptUpd db inv.id userId
    if db1.collaborators.any fun c => c.workspace_id == inv.workspace_id && c.user_id == userId then
      (.acceptedAlreadyMember, db1)
    else
      (.accepted, { db1 with collaborators :=
        db1.collaborators ++ [⟨inv.workspace_id, userId, inv.role⟩] })

/-- Disabled condition of the invite-page accept button:
accepting || user.email !== invitation.invitee_email. -/
def acceptButtonDisabled (accepting : Bool) (userEmail inviteeEmail : String) : Bool :=
  accepting || userEmail != inviteeEmail

/-! ## Permission checks -/

/-- checkDeletePermission (file delete): a single collaborators lookup by
(workspace_id, user_id); a query error (no row) yields false, otherwise the
role must be owner or editor.  The workspaces table is never consulted. -/
def checkDeletePermission (db : DB) (wid uid : String) : Bool :=
  match db.collaborators.find? fun c => c.workspace_id == wid && c.user_id == uid with
  | none => false
  | some c => c.role == Role.owner || c.role == Role.editor

/-- checkPermissions of the MarkdownEditor: compute isWorkspaceOwner from the
workspaces row, then take the collaborator row's role, falling back to owner
for the workspace owner and viewer otherwise. -/
def checkPermissions (db : DB) (wid uid : String) : Role :=
  let isWorkspaceOwner :=
    match db.workspaces.find? fun w => w.id == wid with
    | some w => w.owner_id == uid
    | none => false
  match db.collaborators.find? fun c => c.workspace_id == wid && c.user_id == uid with
  | some c => c.role
  | none => if isWorkspaceOwner then Role.owner else Role.viewer

/-! ## Editor session (MarkdownEditor) -/

/-- Per-open-file session state of the MarkdownEditor: the live buffer
(content), the autosave baseline (originalContent), the last content the user
accepted (lastKnownContent) and the external-change flag. -/
structure EditorSession where
  content : String
  originalContent : String
  lastKnownContent : String
  hasExternalChanges : Bool
deriving DecidableEq, Repr

/-- updateContent (local keystroke): set the buffer; flag when the new text
differs from both the last known content and the autosave baseline. -/
def updateContent (s : EditorSession) (newContent : String) : EditorSession :=
  let s1 := { s with content := newContent }
  if newContent != s.lastKnownContent && newContent != s.originalContent then
    { s1 with hasExternalChanges := true }
  else s1

/-- saveToDatabase: no-op when the buffer equals the baseline; otherwise write
the buffer (returned as the notification payload), move the baseline, and on
a manual save also move lastKnownContent and clear the flag. -/
def saveToDatabase (s : EditorSession) (isManualSave : Bool) : EditorSession × Option String :=
  if s.content == s.originalContent then (s, none)
  else
    let s1 := { s with originalContent := s.content }
    let s2 := if isManualSave then
        { s1 with lastKnownContent := s.content, hasExternalChanges := false }
      else s1
    (s2, some s.content)

/-- The postgres_changes handler for the open file: only when the incoming
content differs from both the live buffer and lastKnownContent is it treated
as an external change (buffer and baseline replaced, flag set); otherwise the
session is untouched. -/
def handleFileChange (s : EditorSession) (incoming : String) : EditorSession :=
  if incoming != s.content && incoming != s.lastKnownContent then
    { s with content := incoming, originalContent := incoming, hasExternalChanges := true }
  else s

/-! ## File versions (useFileHistory.ts, createVersion) -/

/-- createVersion: guard on empty ids, then insert a file_versions row whose
version_number is Math.floor(Date.now() / 1000), the wall-clock second. -/
def createVersion (db : DB) (fileId content userId : String) (nowMs : Nat) : DB :=
  if fileId.isEmpty || userId.isEmpty then db
  else { db with file_versions :=
    db.file_versions ++ [⟨fileId, content, nowMs / 1000, userId⟩] }

/-! ## Chat clearing (ChatSidebar, clearChat) -/

/-- The ownership test checkOwnership computes and clearChat consults. -/
def isWorkspaceOwnerB (db : DB) (wid uid : String) : Bool :=
  match db.workspaces.find? fun w => w.id == wid with
  | some w => w.owner_id == uid
  | none => false

/-- clearChat: refuse for non-owners, require the confirm dialog, then delete
chat_messages rows matching workspace_id with is_ai = false. -/
def clearChat (db : DB) (wid uid : String) (confirmed : Bool) : Bool × DB :=
  if !isWorkspaceOwnerB db wid uid then (false, db)
  else if !confirmed then (false, db)
  else
    (true, { db with chat_messages :=
      db.chat_messages.filter fun m => !(m.workspace_id == wid && m.is_ai == false) })

/-! ## Concrete stores used by witnesses and counterexamples -/

/-- A two-workspace store: w1 owned by u1 (with dependent rows in every
table) and w2 owned by u2. -/
def exDB1 : DB :=
  { users := [⟨"u1", "a@x.com"⟩],
    workspaces := [⟨"w1", "u1"⟩, ⟨"w2", "u2"⟩],
    files := [⟨"f1", "w1", "doc"⟩, ⟨"f2", "w2", "other"⟩],
    file_versions := [⟨"f1", "v", 1, "u1"⟩, ⟨"f2", "v", 1, "u2"⟩],
    chat_messages := [⟨"w1", "u1", "hi", false⟩, ⟨"w2", "u2", "yo", true⟩],
    workspace_activity := [⟨"w1"⟩, ⟨"w2"⟩],
    workspace_requests := [⟨"w1"⟩],
    workspace_invitations := [⟨"i1", "w1", "u1", "b@x.com", none, .editor, .pending, "t1", 100⟩],
    collaborators := [⟨"w1", "u1", .owner⟩, ⟨"w2", "u2", .owner⟩] }

/-- Store with a pending invitation i1 for bob@x.com whose expires_at = 5 lies
in the past for any now greater than 5; bob is not yet a collaborator. -/
def exDB2 : DB :=
  { emptyDB with
    users := [⟨"alice", "alice@x.com"⟩, ⟨"bob", "bob@x.com"⟩],
    workspaces := [⟨"w1", "alice"⟩],
    workspace_invitations :=
      [⟨"i1", "w1", "alice", "bob@x.com", none, .editor, .pending, "tok1", 5⟩] }

/-- Same store as exDB2 but with the invitation already declined (a terminal
state). -/
def exDB2d : DB :=
  { exDB2 with workspace_invitations :=
      [⟨"i1", "w1", "alice", "bob@x.com", none, .editor, .declined, "tok1", 5⟩] }

/-- Store with a pending unexpired invitation for bob@x.com in w1. -/
def exDB3 : DB :=
  { emptyDB with
    users := [⟨"alice", "alice@x.com"⟩, ⟨"bob", "bob@x.com"⟩],
    workspaces := [⟨"w1", "alice"⟩],
    workspace_invitations :=
      [⟨"i1", "w1", "alice", "bob@x.com", none, .editor, .pending, "tok1", 1000⟩] }

/-- The pending invitation row of exDB3 and exDB4. -/
def exInv : InvitationRow :=
  ⟨"i1", "w1", "alice", "bob@x.com", none, .editor, .pending, "tok1", 1000⟩

/-- Store where bob is already a collaborator of w1 while the pending
invitation i1 for bob@x.com still exists. -/
def exDB4 : DB :=
  { exDB3 with collaborators := [⟨"w1", "bob", .editor⟩] }

/-- Store whose workspace w1 is owned by u1 while the collaborators table is
empty (the owner's collaborator row is missing). -/
def exDB5 : DB :=
  { emptyDB with workspaces := [⟨"w1", "u1"⟩] }

/-! ## Generic list lemmas -/

theorem flatMap_congr_mem {α β : Type} {l : List α} {f g : α → List β}
    (h : ∀ x ∈ l, f x = g x) : l.flatMap f = l.flatMap g := by
  induction l with
  | nil => rfl
  | cons a l ih =>
      simp only [List.flatMap_cons]
      rw [h a (List.mem_cons_self a l), ih fun x hx => h x (List.mem_cons_of_mem a hx)]

theorem filter_filter_self {α : Type} (p : α → Bool) (l : List α) :
    (l.filter p).filter p = l.filter p := by
  induction l with
  | nil => rfl
  | cons a l ih =>
      by_cases h : p a
      · simp [List.filter_cons, h, ih]
      · simp [List.filter_cons, h, ih]

theorem filter_pos_of_filter_neg {α : Type} (p : α → Bool) (l : List α) :
    (l.filter fun a => !(p a)).filter p = [] := by
  induction l with
  | nil => rfl
  | cons a l ih =>
      by_cases h : p a
      · simp [List.filter_cons, h, ih]
      · simp [List.filter_cons, h, ih]

theorem filter_neg_of_filter_nil {α : Type} (p : α → Bool) (l : List α)
    (h : l.filter p = []) : (l.filter fun a => !(p a)) = l := by
  induction l with
  | nil => rfl
  | cons a l ih =>
      cases ha : p a
      · simp only [List.filter_cons, ha] at h
        simp only [List.filter_cons, ha, Bool.not_false, if_true]
        rw [ih h]
      · simp only [List.filter_cons, ha, if_true] at h
        exact absurd h (List.cons_ne_nil _ _)

/-! ## Claim C8: the line diff -/

theorem diffEmit_none_left (m? : Option String) (p q r : Nat) :
    diffEmit none m? p r = diffEmit none m? q r := by
  cases m? <;> rfl

theorem diffEmit_none_right (o? : Option String) (p q r : Nat) :
    diffEmit o? none p q = diffEmit o? none p r := by
  cases o? <;> rfl

theorem diffAux_nil_left_eq (ms : List String) (a b : Nat) :
    diffAux [] ms a b =
      (List.range ms.length).flatMap fun i =>
        diffEmit (([] : List String))[i]? ms[i]? (a + i) (b + i) := by
  induction ms generalizing a b with
  | nil => simp [diffAux]
  | cons m ms ih =>
      rw [List.length_cons, List.range_succ_eq_map]
      simp only [List.flatMap_cons, List.flatMap_map]
      have harg : ∀ i ∈ List.range ms.length,
          diffEmit (([] : List String))[i]? ms[i]? (a + i) ((b + 1) + i) =
            diffEmit (([] : List String))[Nat.succ i]? (m :: ms)[Nat.succ i]?
              (a + Nat.succ i) (b + Nat.succ i) := by
        intro i _
        have hb : (b + 1) + i = b + Nat.succ i := by omega
        simp only [List.getElem?_nil, List.getElem?_cons_succ, hb]
        exact diffEmit_none_left _ _ _ _
      simp only [diffAux]
      rw [ih a (b + 1), flatMap_congr_mem harg]
      simp [diffEmit]

theorem diffAux_nil_right_eq (os : List String) (a b : Nat) :
    diffAux os [] a b =
      (List.range os.length).flatMap fun i =>
        diffEmit os[i]? (([] : List String))[i]? (a + i) (b + i) := by
  induction os generalizing a b with
  | nil => simp [diffAux]
  | cons o os ih =>
      rw [List.length_cons, List.range_succ_eq_map]
      simp only [List.flatMap_cons, List.flatMap_map]
      have harg : ∀ i ∈ List.range os.length,
          diffEmit os[i]? (([] : List String))[i]? ((a + 1) + i) (b + i) =
            diffEmit (o :: os)[Nat.succ i]? (([] : List String))[Nat.succ i]?
              (a + Nat.succ i) (b + Nat.succ i) := by
        intro i _
        have ha : (a + 1) + i = a + Nat.succ i := by omega
        simp only [List.getElem?_nil, List.getElem?_cons_succ, ha]
        exact diffEmit_none_right _ _ _ _
      simp only [diffAux]
      rw [ih (a + 1) b, flatMap_congr_mem harg]
      simp [diffEmit]

theorem diffAux_eq_flatMap (os ms : List String) (a b : Nat) :
    diffAux os ms a b =
      (List.range (max os.length ms.length)).flatMap fun i =>
        diffEmit os[i]? ms[i]? (a + i) (b + i) := by
  induction os generalizing ms a b with
  | nil =>
      have := diffAux_nil_left_eq ms a b
      simpa using this
  | cons o os ih =>
      cases ms with
      | nil =>
          have := diffAux_nil_right_eq (o :: os) a b
          simpa using this
      | cons m ms =>
          rw [List.length_cons, List.length_cons, Nat.succ_max_succ, List.range_succ_eq_map]
          simp only [List.flatMap_cons, List.flatMap_map]
          have harg : ∀ i ∈ List.range (max os.length ms.length),
              diffEmit os[i]? ms[i]? ((a + 1) + i) ((b + 1) + i) =
                diffEmit (o :: os)[Nat.succ i]? (m :: ms)[Nat.succ i]?
                  (a + Nat.succ i) (b + Nat.succ i) := by
            intro i _
            have ha : (a + 1) + i = a + Nat.succ i := by omega
            have hb : (b + 1) + i = b + Nat.succ i := by omega
            simp only [List.getElem?_cons_succ, ha, hb]
          simp only [diffAux]
          by_cases h : o = m
          · rw [if_pos h, ih ms (a + 1) (b + 1), flatMap_congr_mem harg]
            simp [diffEmit, h]
          · rw [if_neg h, ih ms (a + 1) (b + 1), flatMap_congr_mem harg]
            simp [diffEmit, h]

/-- Claim C8: for every pair of input strings the line-granularity diff emits,
at each line position, an unchanged entry carrying both line numbers when the
two lines agree, and otherwise a removed entry (old number) immediately
followed by an added entry (new number) when both lines exist — i.e.
generateDiff coincides with the position-wise specification specLineDiff,
which performs no move or rename detection. -/
theorem generateDiff_matches_positional_spec (original modified : String) :
    generateDiff original modified = specLineDiff original modified := by
  unfold generateDiff specLineDiff
  rw [diffAux_eq_flatMap]
  exact flatMap_congr_mem fun i _ => by
    have h1 : 1 + i = i + 1 := by omega
    rw [h1]

/-! ## Claim C2: accept/decline on expired or terminal invitations -/

/-- Claim C2 (code evaluated at the failing input): invitation i1 of exDB2 is
pending with expires_at = 5, in the past for any now greater than 5, yet
acceptInvitation succeeds, flips it to accepted and inserts a collaborator
row; declineInvitation likewise flips it to declined; and accept even flips
an already-declined invitation (exDB2d) to accepted.  Neither function
consults status or expires_at. -/
theorem accept_decline_ignore_expiry_and_status :
    (acceptInvitationWM exDB2 "i1" "bob").1 = true
    ∧ ((acceptInvitationWM exDB2 "i1" "bob").2.workspace_invitations.map fun i => i.status)
        = [.accepted]
    ∧ (acceptInvitationWM exDB2 "i1" "bob").2.collaborators = [⟨"w1", "bob", .editor⟩]
    ∧ ((declineInvitationWM exDB2 "i1").2.workspace_invitations.map fun i => i.status)
        = [.declined]
    ∧ ((acceptInvitationWM exDB2d "i1" "bob").2.workspace_invitations.map fun i => i.status)
        = [.accepted] := by
  exact ⟨rfl, rfl, rfl, rfl, rfl⟩

/-! ## Claim C5: owner treated as owner role -/

/-- Claim C5 counterexample: in exDB5 user u1 owns workspace w1 but has no
collaborators row, and the file-delete permission check returns false, not
true, for the owner. -/
theorem checkDeletePermission_owner_without_row_false :
    checkDeletePermission exDB5 "w1" "u1" = false := by
  rfl

/-- Claim C5 (amended): the editor's permission evaluation does treat the
workspace owner as having the owner role when the collaborators row is
missing, but checkDeletePermission consults only the collaborators table and
returns false for a workspace owner whose collaborator row is missing. -/
theorem owner_fallback_role_vs_delete_check (db : DB) (wid uid : String) (w : WorkspaceRow)
    (hw : db.workspaces.find? (fun x => x.id == wid) = some w)
    (howner : w.owner_id = uid)
    (hnc : db.collaborators.find? (fun c => c.workspace_id == wid && c.user_id == uid) = none) :
    checkPermissions db wid uid = Role.owner ∧ checkDeletePermission db wid uid = false := by
  constructor
  · simp [checkPermissions, hw, hnc, howner]
  · simp [checkDeletePermission, hnc]

/-- Witness for the amended claim C5 at the concrete store exDB5. -/
theorem owner_fallback_role_vs_delete_check_witness :
    checkPermissions exDB5 "w1" "u1" = Role.owner
    ∧ checkDeletePermission exDB5 "w1" "u1" = false :=
  owner_fallback_role_vs_delete_check exDB5 "w1" "u1" ⟨"w1", "u1"⟩ rfl rfl rfl

/-! ## Claim C6: echo suppression in the reconciliation handler -/

/-- Claim C6: a notification whose content equals the live buffer or
lastKnownContent leaves the session untouched (no external-change flag, no
baseline replacement); in particular after a local edit from A to B and this
session's own save of B, the handler applied to the save's own payload B is
the identity on the session. -/
theorem echo_suppression_spec (s : EditorSession) (incoming A B : String) (manual : Bool)
    (hAB : A ≠ B) :
    ((incoming = s.content ∨ incoming = s.lastKnownContent) → handleFileChange s incoming = s)
    ∧ ((saveToDatabase (updateContent ⟨A, A, A, false⟩ B) manual).2 = some B
       ∧ handleFileChange (saveToDatabase (updateContent ⟨A, A, A, false⟩ B) manual).1 B
           = (saveToDatabase (updateContent ⟨A, A, A, false⟩ B) manual).1) := by
  have hBA : B ≠ A := Ne.symm hAB
  refine ⟨fun h => ?_, ?_⟩
  · rcases h with h | h <;> simp [handleFileChange, h]
  · cases manual <;>
      simp [updateContent, saveToDatabase, handleFileChange, hBA]

/-- Witness for claim C6 at concrete contents. -/
theorem echo_suppression_spec_witness :
    handleFileChange ⟨"x", "x", "x", false⟩ "x" = ⟨"x", "x", "x", false⟩
    ∧ (saveToDatabase (updateContent ⟨"a", "a", "a", false⟩ "b") true).2 = some "b" := by
  have h := echo_suppression_spec ⟨"x", "x", "x", false⟩ "x" "a" "b" true (by decide)
  exact ⟨h.1 (Or.inl rfl), h.2.1⟩

/-! ## Claim C7: version numbers under rapid saves -/

/-- Claim C7 (code evaluated at the failing input): two createVersion calls
for the same file at nowMs = 1000 and nowMs = 1500 fall in the same
wall-clock second, so both rows get version_number 1 — the second call does
not assign a number strictly greater than the first. -/
theorem createVersion_same_second_collision :
    ((createVersion (createVersion emptyDB "f1" "a" "u1" 1000) "f1" "b" "u1" 1500).file_versions.map
        fun v => v.version_number) = [1, 1] := by
  rfl

/-! ## Claim C9: token invite page email mismatch -/

/-- Claim C9: when the signed-in email differs from the invited address the
invite-page accept performs no store writes (it returns the email-mismatch
error with the store unchanged), and the accept button is disabled under the
same condition. -/
theorem invite_page_email_mismatch_no_writes (db : DB) (inv : InvitationRow)
    (userEmail userId : String) (accepting : Bool)
    (h : userEmail ≠ inv.invitee_email) :
    acceptInvitationIP db inv userEmail userId = (.emailMismatch, db)
    ∧ acceptButtonDisabled accepting userEmail inv.invitee_email = true := by
  constructor
  · simp [acceptInvitationIP, h]
  · simp [acceptButtonDisabled, h]

/-- Witness for claim C9: eve@x.com cannot redeem bob's invitation. -/
theorem invite_page_email_mismatch_no_writes_witness :
    acceptInvitationIP exDB3 exInv "eve@x.com" "eve" = (.emailMismatch, exDB3)
    ∧ acceptButtonDisabled false "eve@x.com" exInv.invitee_email = true :=
  invite_page_email_mismatch_no_writes exDB3 exInv "eve@x.com" "eve" false (by decide)

/-! ## Claim C10: clearing a workspace's chat -/

/-- Claim C10: clearChat deletes exactly the chat_messages rows of the given
workspace whose is_ai is false — AI messages of the same workspace and all
messages of other workspaces survive, every other table is untouched, and a
non-owner caller (or an unconfirmed dialog) deletes nothing. -/
theorem clearChat_spec (db : DB) (wid uid : String) (confirmed : Bool) :
    (isWorkspaceOwnerB db wid uid = false → clearChat db wid uid confirmed = (false, db))
    ∧ (confirmed = false → clearChat db wid uid confirmed = (false, db))
    ∧ (isWorkspaceOwnerB db wid uid = true → confirmed = true →
        clearChat db wid uid confirmed =
          (true, { db with chat_messages :=
            db.chat_messages.filter fun m => !(m.workspace_id == wid && m.is_ai == false) })
        ∧ (∀ m ∈ db.chat_messages, (m.workspace_id ≠ wid ∨ m.is_ai = true) →
            m ∈ (clearChat db wid uid confirmed).2.chat_messages)
        ∧ (∀ m ∈ (clearChat db wid uid confirmed).2.chat_messages,
            m ∈ db.chat_messages ∧ ¬(m.workspace_id = wid ∧ m.is_ai = false))
        ∧ (clearChat db wid uid confirmed).2.users = db.users
        ∧ (clearChat db wid uid confirmed).2.workspaces = db.workspaces
        ∧ (clearChat db wid uid confirmed).2.files = db.files
        ∧ (clearChat db wid uid confirmed).2.file_versions = db.file_versions
        ∧ (clearChat db wid uid confirmed).2.workspace_activity = db.workspace_activity
        ∧ (clearChat db wid uid confirmed).2.workspace_requests = db.workspace_requests
        ∧ (clearChat db wid uid confirmed).2.workspace_invitations = db.workspace_invitations
        ∧ (clearChat db wid uid confirmed).2.collaborators = db.collaborators) := by
  refine ⟨fun hno => ?_, fun hnc => ?_, fun hyes hconf => ?_⟩
  · simp [clearChat, hno]
  · cases hiso : isWorkspaceOwnerB db wid uid <;> simp [clearChat, hiso, hnc]
  · have hrun : clearChat db wid uid confirmed =
        (true, { db with chat_messages :=
          db.chat_messages.filter fun m => !(m.workspace_id == wid && m.is_ai == false) }) := by
      simp [clearChat, hyes, hconf]
    refine ⟨hrun, ?_, ?_, by rw [hrun], by rw [hrun], by rw [hrun], by rw [hrun],
      by rw [hrun], by rw [hrun], by rw [hrun], by rw [hrun]⟩
    · intro m hm hcond
      rw [hrun]
      simp only [List.mem_filter]
      refine ⟨hm, ?_⟩
      rcases hcond with h1 | h1
      · simp [h1]
      · simp [h1]
    · intro m hm
      rw [hrun] at hm
      simp only [List.mem_filter] at hm
      refine ⟨hm.1, ?_⟩
      rintro ⟨hw, hai⟩
      have := hm.2
      simp [hw, hai] at this

/-- Witness for claim C10 at the concrete store exDB1 (owner u1 clears w1:
the team message of w1 goes, the AI message of w2 stays). -/
theorem clearChat_spec_witness :
    clearChat exDB1 "w1" "u1" true =
      (true, { exDB1 with chat_messages :=
        exDB1.chat_messages.filter fun m => !(m.workspace_id == "w1" && m.is_ai == false) }) :=
  ((clearChat_spec exDB1 "w1" "u1" true).2.2 (by rfl) rfl).1

/-! ## Claim C3: invitation deduplication -/

theorem eq_singleton_of_mem_of_length_le_one {α : Type} {l : List α} {a : α}
    (hmem : a ∈ l) (hlen : l.length ≤ 1) : l = [a] := by
  cases l with
  | nil => cases hmem
  | cons x t =>
      cases t with
      | nil =>
          rcases List.mem_singleton.mp hmem with rfl
          rfl
      | cons y t' => simp at hlen

/-- Claim C3: sendInvitation fails with the duplicate error and inserts
nothing when a pending unexpired invitation for (workspace, email) exists;
any other existing row for the pair is deleted before the fresh pending row
is inserted; and the at-most-one-row-per-pair invariant is preserved. -/
theorem sendInvitation_dedup_spec (db : DB) (wid inviterId emailInput : String) (role : Role)
    (now : Nat) (newId newToken : String)
    (hnm : emailIsCollaborator db wid (toLowerStr emailInput) = false) :
    (∀ inv, db.workspace_invitations.find?
          (fun i => i.workspace_id == wid && i.invitee_email == toLowerStr emailInput)
          = some inv →
        inv.status = .pending → now < inv.expires_at →
        sendInvitation db wid inviterId emailInput role now newId newToken
          = (.duplicateInvitation, db))
    ∧ (∀ inv, db.workspace_invitations.find?
          (fun i => i.workspace_id == wid && i.invitee_email == toLowerStr emailInput)
          = some inv →
        (inv.status ≠ .pending ∨ inv.expires_at ≤ now) →
        sendInvitation db wid inviterId emailInput role now newId newToken
          = (.ok, { db with workspace_invitations :=
              (db.workspace_invitations.filter fun i => !(i.id == inv.id))
                ++ [newInvitationRow wid inviterId (toLowerStr emailInput) role now newId newToken] }))
    ∧ (db.workspace_invitations.find?
          (fun i => i.workspace_id == wid && i.invitee_email == toLowerStr emailInput) = none →
        sendInvitation db wid inviterId emailInput role now newId newToken
          = (.ok, { db with workspace_invitations := db.workspace_invitations
              ++ [newInvitationRow wid inviterId (toLowerStr emailInput) role now newId newToken] }))
    ∧ ((db.workspace_invitations.filter fun i =>
          i.workspace_id == wid && i.invitee_email == toLowerStr emailInput).length ≤ 1 →
        ((sendInvitation db wid inviterId emailInput role now newId newToken).2.workspace_invitations.filter
            fun i => i.workspace_id == wid && i.invitee_email == toLowerStr emailInput).length ≤ 1) := by
  refine ⟨fun inv hfind hp hlt => ?_, fun inv hfind hcase => ?_, fun hnone => ?_, fun huniq => ?_⟩
  · simp [sendInvitation, hnm, hfind, hp, hlt]
  · rcases hcase with h1 | h1
    · simp [sendInvitation, hnm, hfind, h1]
    · have h2 : ¬ now < inv.expires_at := not_lt.mpr h1
      simp [sendInvitation, hnm, hfind, h2]
  · simp [sendInvitation, hnm, hnone]
  · cases hf : db.workspace_invitations.find?
        (fun i => i.workspace_id == wid && i.invitee_email == toLowerStr emailInput) with
    | none =>
        have hnil : (db.workspace_invitations.filter fun i =>
            i.workspace_id == wid && i.invitee_email == toLowerStr emailInput) = [] := by
          refine List.filter_eq_nil_iff.mpr ?_
          intro x hx
          exact List.find?_eq_none.mp hf x hx
        simp only [sendInvitation, hnm, Bool.false_eq_true, if_false, hf]
        simp [List.filter_append, hnil, newInvitationRow]
    | some inv =>
        by_cases hdup : (inv.status == InvStatus.pending && decide (now < inv.expires_at)) = true
        · simp only [sendInvitation, hnm, Bool.false_eq_true, if_false, hf, hdup, if_true]
          exact huniq
        · have hpinv := List.find?_some hf
          have hp : inv ∈ db.workspace_invitations.filter fun i =>
              i.workspace_id == wid && i.invitee_email == toLowerStr emailInput :=
            List.mem_filter.mpr ⟨List.mem_of_find?_eq_some hf, hpinv⟩
          have hsingle := eq_singleton_of_mem_of_length_le_one hp huniq
          have hmid : ((db.workspace_invitations.filter fun i => !(i.id == inv.id)).filter
              fun i => i.workspace_id == wid && i.invitee_email == toLowerStr emailInput) = [] := by
            refine List.filter_eq_nil_iff.mpr ?_
            intro x hx
            rcases List.mem_filter.mp hx with ⟨hxl, hxid⟩
            intro hxp
            have hxin : x ∈ db.workspace_invitations.filter fun i =>
                i.workspace_id == wid && i.invitee_email == toLowerStr emailInput :=
              List.mem_filter.mpr ⟨hxl, hxp⟩
            rw [hsingle] at hxin
            rcases List.mem_singleton.mp hxin with rfl
            simp at hxid
          simp only [sendInvitation, hnm, Bool.false_eq_true, if_false, hf, hdup]
          simp [List.filter_append, hmid, newInvitationRow]

/-- Witness for claim C3: re-inviting bob while his invitation in exDB3 is
still pending and unexpired (now = 100 against expires_at = 1000) fails with
the duplicate error and leaves the store unchanged. -/
theorem sendInvitation_dedup_spec_witness :
    sendInvitation exDB3 "w1" "alice" "bob@x.com" .viewer 100 "i2" "tok2"
      = (.duplicateInvitation, exDB3) := by
  have h := sendInvitation_dedup_spec exDB3 "w1" "alice" "bob@x.com" .viewer 100 "i2" "tok2"
    (by decide)
  exact h.1 exInv (by decide) rfl (by decide)

/-! ## Claim C4: idempotent accept -/

theorem find?_acceptUpd (l : List InvitationRow) (invId userId : String) (inv : InvitationRow)
    (h : l.find? (fun i => i.id == invId) = some inv) :
    ((l.map fun i =>
        if i.id == invId then { i with status := InvStatus.accepted, invitee_id := some userId }
        else i).find? fun i => i.id == invId)
      = some { inv with status := InvStatus.accepted, invitee_id := some userId } := by
  induction l with
  | nil => simp at h
  | cons a t ih =>
      cases ha : a.id == invId with
      | true =>
          simp only [List.find?, ha] at h
          injection h with h
          subst h
          simp [List.find?, ha]
      | false =>
          simp only [List.find?, ha] at h
          simp only [List.map_cons, ha, Bool.false_eq_true, if_false, List.find?]
          exact ih h

theorem map_acceptFn_idem (l : List InvitationRow) (invId uid : String) :
    ((l.map fun i =>
        if i.id == invId then { i with status := InvStatus.accepted, invitee_id := some uid }
        else i).map fun i =>
        if i.id == invId then { i with status := InvStatus.accepted, invitee_id := some uid }
        else i)
      = l.map fun i =>
        if i.id == invId then { i with status := InvStatus.accepted, invitee_id := some uid }
        else i := by
  rw [List.map_map]
  refine List.map_congr_left ?_
  intro i _
  by_cases h : (i.id == invId) = true
  · simp [Function.comp, h]
  · simp [Function.comp, h]

/-- Claim C4 counterexample: in exDB4 bob is already a collaborator of w1
while invitation i1 is still pending; the WorkspaceManagement accept throws
on the uniqueness violation instead of treating it as success, so this
accept call errors. -/
theorem acceptInvitationWM_already_member_errors :
    (acceptInvitationWM exDB4 "i1" "bob").1 = false := by
  rfl

/-- Claim C4 (amended): the invite-page accept is idempotent — with the
accepting user already a collaborator it treats the uniqueness violation as
success, still marks the invitation accepted, leaves the collaborators table
unchanged, and a second accept call reproduces the same end state without
error; the WorkspaceManagement accept reaches the same end state (invitation
accepted, collaborators unchanged) but surfaces the uniqueness violation as
an error instead of success. -/
theorem accept_idempotency_spec (db : DB) (inv : InvitationRow) (userEmail userId : String)
    (hEmail : userEmail = inv.invitee_email) :
    ((db.collaborators.any fun c =>
        c.workspace_id == inv.workspace_id && c.user_id == userId) = true →
      acceptInvitationIP db inv userEmail userId
        = (.acceptedAlreadyMember, acceptUpd db inv.id userId)
      ∧ (acceptInvitationIP db inv userEmail userId).2.collaborators = db.collaborators)
    ∧ (∀ inv0, db.workspace_invitations.find? (fun i => i.id == inv.id) = some inv0 →
        ((acceptInvitationIP db inv userEmail userId).2.workspace_invitations.find?
            fun i => i.id == inv.id)
          = some { inv0 with status := InvStatus.accepted, invitee_id := some userId })
    ∧ ((db.collaborators.any fun c =>
        c.workspace_id == inv.workspace_id && c.user_id == userId) = false →
      (acceptInvitationIP db inv userEmail userId).1 = .accepted
      ∧ ((acceptInvitationIP db inv userEmail userId).2.collaborators.filter fun c =>
            c.workspace_id == inv.workspace_id && c.user_id == userId)
          = [⟨inv.workspace_id, userId, inv.role⟩]
      ∧ acceptInvitationIP (acceptInvitationIP db inv userEmail userId).2 inv userEmail userId
          = (.acceptedAlreadyMember, (acceptInvitationIP db inv userEmail userId).2))
    ∧ (∀ invId inv1,
        (acceptUpd db invId userId).workspace_invitations.find? (fun i => i.id == invId)
          = some inv1 →
        (db.collaborators.any fun c =>
          c.workspace_id == inv1.workspace_id && c.user_id == userId) = true →
        acceptInvitationWM db invId userId = (false, acceptUpd db invId userId)) := by
  subst hEmail
  refine ⟨fun hc => ?_, fun inv0 hfind => ?_, fun hnc => ?_, fun invId inv1 hfind hc => ?_⟩
  · constructor
    · simp [acceptInvitationIP, acceptUpd, hc]
    · simp [acceptInvitationIP, acceptUpd, hc]
  · by_cases hc : (db.collaborators.any fun c =>
        c.workspace_id == inv.workspace_id && c.user_id == userId) = true
    · simp only [acceptInvitationIP, bne_self_eq_false, Bool.false_eq_true, if_false,
        acceptUpd, hc, if_true]
      exact find?_acceptUpd db.workspace_invitations inv.id userId inv0 hfind
    · simp only [acceptInvitationIP, bne_self_eq_false, Bool.false_eq_true, if_false,
        acceptUpd, hc]
      exact find?_acceptUpd db.workspace_invitations inv.id userId inv0 hfind
  · have hfilter : (db.collaborators.filter fun c =>
        c.workspace_id == inv.workspace_id && c.user_id == userId) = [] := by
      refine List.filter_eq_nil_iff.mpr ?_
      intro x hx hpx
      have : db.collaborators.any (fun c =>
          c.workspace_id == inv.workspace_id && c.user_id == userId) = true :=
        List.any_eq_true.mpr ⟨x, hx, hpx⟩
      rw [hnc] at this
      cases this
    refine ⟨?_, ?_, ?_⟩
    · simp [acceptInvitationIP, acceptUpd, hnc]
    · simp only [acceptInvitationIP, bne_self_eq_false, Bool.false_eq_true, if_false,
        acceptUpd, hnc]
      simp [List.filter_append, hfilter]
    · have hstep : acceptInvitationIP db inv inv.invitee_email userId
          = (.accepted, { acceptUpd db inv.id userId with collaborators :=
              db.collaborators ++ [⟨inv.workspace_id, userId, inv.role⟩] }) := by
        simp [acceptInvitationIP, acceptUpd, hnc]
      rw [hstep]
      have hany2 : ((db.collaborators ++
          [(⟨inv.workspace_id, userId, inv.role⟩ : CollaboratorRow)]).any fun c =>
            c.workspace_id == inv.workspace_id && c.user_id == userId) = true := by
        simp
      simp only [acceptInvitationIP, bne_self_eq_false, Bool.false_eq_true, if_false]
      simp only [acceptUpd, hany2, if_true]
      rw [map_acceptFn_idem]
  · simp only [acceptUpd] at hfind
    simp only [acceptInvitationWM, acceptUpd, hfind, hc, if_true]

/-- Witness for the amended claim C4: bob accepts his pending invitation in
exDB3 and a second accept reproduces the same end state without error. -/
theorem accept_idempotency_spec_witness :
    (acceptInvitationIP exDB3 exInv "bob@x.com" "bob").1 = .accepted
    ∧ acceptInvitationIP (acceptInvitationIP exDB3 exInv "bob@x.com" "bob").2 exInv
        "bob@x.com" "bob"
      = (.acceptedAlreadyMember, (acceptInvitationIP exDB3 exInv "bob@x.com" "bob").2) := by
  have h := accept_idempotency_spec exDB3 exInv "bob@x.com" "bob" rfl
  exact ⟨(h.2.2.1 rfl).1, (h.2.2.1 rfl).2.2⟩

/-! ## Claim C1: workspace deletion -/

theorem removeFileVersionsOf_workspaces (db : DB) (wid : String) :
    (removeFileVersionsOf db wid).workspaces = db.workspaces := by
  simp only [removeFileVersionsOf]
  split <;> rfl

theorem cascadeToCollaborators_workspaces (db : DB) (wid : String) :
    (cascadeToCollaborators db wid).workspaces = db.workspaces := by
  simp only [cascadeToCollaborators, removeCollaboratorsOf, cascadeToRequests, removeRequestsOf,
    cascadeToInvitations, removeInvitationsOf, cascadeToActivity, removeActivityOf,
    cascadeToChat, removeChatOf, cascadeToFiles, removeFilesOf, cascadeToFileVersions,
    removeFileVersionsOf_workspaces]

theorem deleteWorkspace_clean_run (db : DB) (wid uid : String) (w : WorkspaceRow)
    (hfind : db.workspaces.find? (fun x => x.id == wid) = some w)
    (howner : w.owner_id = uid) :
    deleteWorkspace db wid uid noDeleteFailures
      = (⟨true, msgDeleteSuccess⟩, cleanCascade db wid uid) := by
  have hbne : (w.owner_id != uid) = false := by simp [howner]
  have hmem : w ∈ db.workspaces := List.mem_of_find?_eq_some hfind
  have hpw := List.find?_some hfind
  have hpw2 : (w.id == wid && w.owner_id == uid) = true := by
    simp only [Bool.and_eq_true]
    exact ⟨hpw, by simp [howner]⟩
  have hne : (db.workspaces.filter fun w2 => w2.id == wid && w2.owner_id == uid) ≠ [] :=
    List.ne_nil_of_mem (List.mem_filter.mpr ⟨hmem, hpw2⟩)
  have hemp : (db.workspaces.filter fun w2 => w2.id == wid && w2.owner_id == uid).isEmpty
      = false := List.isEmpty_eq_false.mpr hne
  simp only [deleteWorkspace, noDeleteFailures, hfind, hbne, Bool.false_eq_true, if_false,
    Bool.and_false, cascadeToCollaborators_workspaces, hemp]

theorem deleteWorkspace_cases_aux (db : DB) (wid uid : String) (f : DeleteFailures)
    (r : DeleteResult) (db2 : DB)
    (h : deleteWorkspace db wid uid f = (r, db2)) :
    (r.success = true ∧ db2 = cleanCascade db wid uid)
    ∨ (r.success = false ∧ (db2 = db
        ∨ db2 = cascadeToFileVersions db wid
        ∨ db2 = cascadeToFiles db wid
        ∨ db2 = cascadeToChat db wid
        ∨ db2 = cascadeToActivity db wid
        ∨ db2 = cascadeToInvitations db wid
        ∨ db2 = cascadeToRequests db wid
        ∨ db2 = cascadeToCollaborators db wid
        ∨ (db2 = cleanCascade db wid uid
            ∧ ((cascadeToCollaborators db wid).workspaces.filter fun w2 =>
                w2.id == wid && w2.owner_id == uid) = []))) := by
  unfold deleteWorkspace at h
  cases hf1 : f.fetchWorkspace with
  | true =>
      simp only [hf1, reduceIte] at h
      injection h with h1 h2
      subst h1; subst h2
      exact Or.inr ⟨rfl, Or.inl rfl⟩
  | false =>
  simp only [hf1, reduceIte] at h
  cases hfind : db.workspaces.find? fun w => w.id == wid with
  | none =>
      simp only [hfind] at h
      injection h with h1 h2
      subst h1; subst h2
      exact Or.inr ⟨rfl, Or.inl rfl⟩
  | some w =>
  simp only [hfind] at h
  cases hbo : w.owner_id != uid with
  | true =>
      simp only [hbo, reduceIte] at h
      injection h with h1 h2
      subst h1; subst h2
      exact Or.inr ⟨rfl, Or.inl rfl⟩
  | false =>
  simp only [hbo, reduceIte] at h
  cases hf2 : f.fetchFiles with
  | true =>
      simp only [hf2, reduceIte] at h
      injection h with h1 h2
      subst h1; subst h2
      exact Or.inr ⟨rfl, Or.inl rfl⟩
  | false =>
  simp only [hf2, reduceIte] at h
  cases hvc : !(db.files.filter fun fi => fi.workspace_id == wid).isEmpty && f.delFileVersions with
  | true =>
      simp only [hvc, reduceIte] at h
      injection h with h1 h2
      subst h1; subst h2
      exact Or.inr ⟨rfl, Or.inl rfl⟩
  | false =>
  simp only [hvc, reduceIte] at h
  cases hf4 : f.delFiles with
  | true =>
      simp only [hf4, reduceIte] at h
      injection h with h1 h2
      subst h1; subst h2
      exact Or.inr ⟨rfl, Or.inr (Or.inl rfl)⟩
  | false =>
  simp only [hf4, reduceIte] at h
  cases hf5 : f.delChat with
  | true =>
      simp only [hf5, reduceIte] at h
      injection h with h1 h2
      subst h1; subst h2
      exact Or.inr ⟨rfl, Or.inr (Or.inr (Or.inl rfl))⟩
  | false =>
  simp only [hf5, reduceIte] at h
  cases hf6 : f.delActivity with
  | true =>
      simp only [hf6, reduceIte] at h
      injection h with h1 h2
      subst h1; subst h2
      exact Or.inr ⟨rfl, Or.inr (Or.inr (Or.inr (Or.inl rfl)))⟩
  | false =>
  simp only [hf6, reduceIte] at h
  cases hf7 : f.delInvitations with
  | true =>
      simp only [hf7, reduceIte] at h
      injection h with h1 h2
      subst h1; subst h2
      exact Or.inr ⟨rfl, Or.inr (Or.inr (Or.inr (Or.inr (Or.inl rfl))))⟩
  | false =>
  simp only [hf7, reduceIte] at h
  cases hf8 : f.delRequests with
  | true =>
      simp only [hf8, reduceIte] at h
      injection h with h1 h2
      subst h1; subst h2
      exact Or.inr ⟨rfl, Or.inr (Or.inr (Or.inr (Or.inr (Or.inr (Or.inl rfl)))))⟩
  | false =>
  simp only [hf8, reduceIte] at h
  cases hf9 : f.delCollaborators with
  | true =>
      simp only [hf9, reduceIte] at h
      injection h with h1 h2
      subst h1; subst h2
      exact Or.inr ⟨rfl, Or.inr (Or.inr (Or.inr (Or.inr (Or.inr (Or.inr (Or.inl rfl))))))⟩
  | false =>
  simp only [hf9, reduceIte] at h
  cases hf10 : f.delWorkspace with
  | true =>
      simp only [hf10, reduceIte] at h
      injection h with h1 h2
      subst h1; subst h2
      exact Or.inr ⟨rfl, Or.inr (Or.inr (Or.inr (Or.inr (Or.inr (Or.inr (Or.inr (Or.inl rfl)))))))⟩
  | false =>
  simp only [hf10, reduceIte] at h
  cases hdel : ((cascadeToCollaborators db wid).workspaces.filter fun w2 =>
      w2.id == wid && w2.owner_id == uid).isEmpty with
  | true =>
      simp only [hdel, reduceIte] at h
      injection h with h1 h2
      subst h1; subst h2
      exact Or.inr ⟨rfl, Or.inr (Or.inr (Or.inr (Or.inr (Or.inr (Or.inr (Or.inr (Or.inr
        ⟨rfl, List.isEmpty_iff.mp hdel⟩)))))))⟩
  | false =>
      simp only [hdel, reduceIte] at h
      injection h with h1 h2
      subst h1; subst h2
      exact Or.inl ⟨rfl, rfl⟩

theorem cascadeToFileVersions_workspaces (db : DB) (wid : String) :
    (cascadeToFileVersions db wid).workspaces = db.workspaces :=
  removeFileVersionsOf_workspaces db wid

theorem cascadeToFiles_workspaces (db : DB) (wid : String) :
    (cascadeToFiles db wid).workspaces = db.workspaces := by
  simp only [cascadeToFiles, removeFilesOf]
  exact cascadeToFileVersions_workspaces db wid

theorem cascadeToChat_workspaces (db : DB) (wid : String) :
    (cascadeToChat db wid).workspaces = db.workspaces := by
  simp only [cascadeToChat, removeChatOf]
  exact cascadeToFiles_workspaces db wid

theorem cascadeToActivity_workspaces (db : DB) (wid : String) :
    (cascadeToActivity db wid).workspaces = db.workspaces := by
  simp only [cascadeToActivity, removeActivityOf]
  exact cascadeToChat_workspaces db wid

theorem cascadeToInvitations_workspaces (db : DB) (wid : String) :
    (cascadeToInvitations db wid).workspaces = db.workspaces := by
  simp only [cascadeToInvitations, removeInvitationsOf]
  exact cascadeToActivity_workspaces db wid

theorem cascadeToRequests_workspaces (db : DB) (wid : String) :
    (cascadeToRequests db wid).workspaces = db.workspaces := by
  simp only [cascadeToRequests, removeRequestsOf]
  exact cascadeToInvitations_workspaces db wid

theorem cleanCascade_after_fv (db : DB) (wid uid : String) :
    cleanCascade (cascadeToFileVersions db wid) wid uid = cleanCascade db wid uid := by
  by_cases hc : ((db.files.filter fun fi => fi.workspace_id == wid).map fun fi => fi.id).isEmpty
      = true
  · simp [cleanCascade, cascadeToCollaborators, cascadeToRequests, cascadeToInvitations,
      cascadeToActivity, cascadeToChat, cascadeToFiles, cascadeToFileVersions,
      removeWorkspaceRow, removeCollaboratorsOf, removeRequestsOf, removeInvitationsOf,
      removeActivityOf, removeChatOf, removeFilesOf, removeFileVersionsOf, hc,
      filter_filter_self, filter_pos_of_filter_neg]
  · simp [cleanCascade, cascadeToCollaborators, cascadeToRequests, cascadeToInvitations,
      cascadeToActivity, cascadeToChat, cascadeToFiles, cascadeToFileVersions,
      removeWorkspaceRow, removeCollaboratorsOf, removeRequestsOf, removeInvitationsOf,
      removeActivityOf, removeChatOf, removeFilesOf, removeFileVersionsOf, hc,
      filter_filter_self, filter_pos_of_filter_neg]

theorem cleanCascade_after_files (db : DB) (wid uid : String) :
    cleanCascade (cascadeToFiles db wid) wid uid = cleanCascade db wid uid := by
  by_cases hc : ((db.files.filter fun fi => fi.workspace_id == wid).map fun fi => fi.id).isEmpty
      = true
  · simp [cleanCascade, cascadeToCollaborators, cascadeToRequests, cascadeToInvitations,
      cascadeToActivity, cascadeToChat, cascadeToFiles, cascadeToFileVersions,
      removeWorkspaceRow, removeCollaboratorsOf, removeRequestsOf, removeInvitationsOf,
      removeActivityOf, removeChatOf, removeFilesOf, removeFileVersionsOf, hc,
      filter_filter_self, filter_pos_of_filter_neg]
  · simp [cleanCascade, cascadeToCollaborators, cascadeToRequests, cascadeToInvitations,
      cascadeToActivity, cascadeToChat, cascadeToFiles, cascadeToFileVersions,
      removeWorkspaceRow, removeCollaboratorsOf, removeRequestsOf, removeInvitationsOf,
      removeActivityOf, removeChatOf, removeFilesOf, removeFileVersionsOf, hc,
      filter_filter_self, filter_pos_of_filter_neg]

theorem cleanCascade_after_chat (db : DB) (wid uid : String) :
    cleanCascade (cascadeToChat db wid) wid uid = cleanCascade db wid uid := by
  by_cases hc : ((db.files.filter fun fi => fi.workspace_id == wid).map fun fi => fi.id).isEmpty
      = true
  · simp [cleanCascade, cascadeToCollaborators, cascadeToRequests, cascadeToInvitations,
      cascadeToActivity, cascadeToChat, cascadeToFiles, cascadeToFileVersions,
      removeWorkspaceRow, removeCollaboratorsOf, removeRequestsOf, removeInvitationsOf,
      removeActivityOf, removeChatOf, removeFilesOf, removeFileVersionsOf, hc,
      filter_filter_self, filter_pos_of_filter_neg]
  · simp [cleanCascade, cascadeToCollaborators, cascadeToRequests, cascadeToInvitations,
      cascadeToActivity, cascadeToChat, cascadeToFiles, cascadeToFileVersions,
      removeWorkspaceRow, removeCollaboratorsOf, removeRequestsOf, removeInvitationsOf,
      removeActivityOf, removeChatOf, removeFilesOf, removeFileVersionsOf, hc,
      filter_filter_self, filter_pos_of_filter_neg]

theorem cleanCascade_after_activity (db : DB) (wid uid : String) :
    cleanCascade (cascadeToActivity db wid) wid uid = cleanCascade db wid uid := by
  by_cases hc : ((db.files.filter fun fi => fi.workspace_id == wid).map fun fi => fi.id).isEmpty
      = true
  · simp [cleanCascade, cascadeToCollaborators, cascadeToRequests, cascadeToInvitations,
      cascadeToActivity, cascadeToChat, cascadeToFiles, cascadeToFileVersions,
      removeWorkspaceRow, removeCollaboratorsOf, removeRequestsOf, removeInvitationsOf,
      removeActivityOf, removeChatOf, removeFilesOf, removeFileVersionsOf, hc,
      filter_filter_self, filter_pos_of_filter_neg]
  · simp [cleanCascade, cascadeToCollaborators, cascadeToRequests, cascadeToInvitations,
      cascadeToActivity, cascadeToChat, cascadeToFiles, cascadeToFileVersions,
      removeWorkspaceRow, removeCollaboratorsOf, removeRequestsOf, removeInvitationsOf,
      removeActivityOf, removeChatOf, removeFilesOf, removeFileVersionsOf, hc,
      filter_filter_self, filter_pos_of_filter_neg]

theorem cleanCascade_after_invitations (db : DB) (wid uid : String) :
    cleanCascade (cascadeToInvitations db wid) wid uid = cleanCascade db wid uid := by
  by_cases hc : ((db.files.filter fun fi => fi.workspace_id == wid).map fun fi => fi.id).isEmpty
      = true
  · simp [cleanCascade, cascadeToCollaborators, cascadeToRequests, cascadeToInvitations,
      cascadeToActivity, cascadeToChat, cascadeToFiles, cascadeToFileVersions,
      removeWorkspaceRow, removeCollaboratorsOf, removeRequestsOf, removeInvitationsOf,
      removeActivityOf, removeChatOf, removeFilesOf, removeFileVersionsOf, hc,
      filter_filter_self, filter_pos_of_filter_neg]
  · simp [cleanCascade, cascadeToCollaborators, cascadeToRequests, cascadeToInvitations,
      cascadeToActivity, cascadeToChat, cascadeToFiles, cascadeToFileVersions,
      removeWorkspaceRow, removeCollaboratorsOf, removeRequestsOf, removeInvitationsOf,
      removeActivityOf, removeChatOf, removeFilesOf, removeFileVersionsOf, hc,
      filter_filter_self, filter_pos_of_filter_neg]

theorem cleanCascade_after_requests (db : DB) (wid uid : String) :
    cleanCascade (cascadeToRequests db wid) wid uid = cleanCascade db wid uid := by
  by_cases hc : ((db.files.filter fun fi => fi.workspace_id == wid).map fun fi => fi.id).isEmpty
      = true
  · simp [cleanCascade, cascadeToCollaborators, cascadeToRequests, cascadeToInvitations,
      cascadeToActivity, cascadeToChat, cascadeToFiles, cascadeToFileVersions,
      removeWorkspaceRow, removeCollaboratorsOf, removeRequestsOf, removeInvitationsOf,
      removeActivityOf, removeChatOf, removeFilesOf, removeFileVersionsOf, hc,
      filter_filter_self, filter_pos_of_filter_neg]
  · simp [cleanCascade, cascadeToCollaborators, cascadeToRequests, cascadeToInvitations,
      cascadeToActivity, cascadeToChat, cascadeToFiles, cascadeToFileVersions,
      removeWorkspaceRow, removeCollaboratorsOf, removeRequestsOf, removeInvitationsOf,
      removeActivityOf, removeChatOf, removeFilesOf, removeFileVersionsOf, hc,
      filter_filter_self, filter_pos_of_filter_neg]

theorem cleanCascade_after_collaborators (db : DB) (wid uid : String) :
    cleanCascade (cascadeToCollaborators db wid) wid uid = cleanCascade db wid uid := by
  by_cases hc : ((db.files.filter fun fi => fi.workspace_id == wid).map fun fi => fi.id).isEmpty
      = true
  · simp [cleanCascade, cascadeToCollaborators, cascadeToRequests, cascadeToInvitations,
      cascadeToActivity, cascadeToChat, cascadeToFiles, cascadeToFileVersions,
      removeWorkspaceRow, removeCollaboratorsOf, removeRequestsOf, removeInvitationsOf,
      removeActivityOf, removeChatOf, removeFilesOf, removeFileVersionsOf, hc,
      filter_filter_self, filter_pos_of_filter_neg]
  · simp [cleanCascade, cascadeToCollaborators, cascadeToRequests, cascadeToInvitations,
      cascadeToActivity, cascadeToChat, cascadeToFiles, cascadeToFileVersions,
      removeWorkspaceRow, removeCollaboratorsOf, removeRequestsOf, removeInvitationsOf,
      removeActivityOf, removeChatOf, removeFilesOf, removeFileVersionsOf, hc,
      filter_filter_self, filter_pos_of_filter_neg]

/-- Claim C1: deleteWorkspace re-verifies ownership first (a non-owner call
fails and deletes nothing); with all store calls succeeding the dependent
rows are removed in the fixed order ending with the workspace row
(cleanCascade); any failing step returns success = false with that step's
message and the store advanced exactly to the steps before it, with the
workspace row always surviving a failed call; and since every step is a
delete-by-parent-id, retrying after any partial failure converges to the
same final store as an undisturbed run. -/
theorem deleteWorkspace_spec (db : DB) (wid uid : String) (f : DeleteFailures) :
    (∀ w, db.workspaces.find? (fun x => x.id == wid) = some w → w.owner_id ≠ uid →
      (deleteWorkspace db wid uid f).1.success = false ∧ (deleteWorkspace db wid uid f).2 = db)
    ∧ ((deleteWorkspace db wid uid f).1.success = false →
        (deleteWorkspace db wid uid f).2.workspaces = db.workspaces)
    ∧ (∀ w, db.workspaces.find? (fun x => x.id == wid) = some w → w.owner_id = uid →
        deleteWorkspace db wid uid noDeleteFailures
          = (⟨true, msgDeleteSuccess⟩, cleanCascade db wid uid))
    ∧ (∀ w, db.workspaces.find? (fun x => x.id == wid) = some w → w.owner_id = uid →
        f.fetchWorkspace = false → f.fetchFiles = false →
        (((!(db.files.filter fun fi => fi.workspace_id == wid).isEmpty && f.delFileVersions)
            = true →
          deleteWorkspace db wid uid f = (⟨false, msgDelFileVersions⟩, db))
        ∧ ((!(db.files.filter fun fi => fi.workspace_id == wid).isEmpty && f.delFileVersions)
            = false →
          (f.delFiles = true →
            deleteWorkspace db wid uid f = (⟨false, msgDelFiles⟩, cascadeToFileVersions db wid))
          ∧ (f.delFiles = false →
            (f.delChat = true →
              deleteWorkspace db wid uid f = (⟨false, msgDelChat⟩, cascadeToFiles db wid))
            ∧ (f.delChat = false →
              (f.delActivity = true →
                deleteWorkspace db wid uid f = (⟨false, msgDelActivity⟩, cascadeToChat db wid))
              ∧ (f.delActivity = false →
                (f.delInvitations = true →
                  deleteWorkspace db wid uid f
                    = (⟨false, msgDelInvitations⟩, cascadeToActivity db wid))
                ∧ (f.delInvitations = false →
                  (f.delRequests = true →
                    deleteWorkspace db wid uid f
                      = (⟨false, msgDelRequests⟩, cascadeToInvitations db wid))
                  ∧ (f.delRequests = false →
                    (f.delCollaborators = true →
                      deleteWorkspace db wid uid f
                        = (⟨false, msgDelCollaborators⟩, cascadeToRequests db wid))
                    ∧ (f.delCollaborators = false → f.delWorkspace = true →
                      deleteWorkspace db wid uid f
                        = (⟨false, msgDelWorkspace⟩, cascadeToCollaborators db wid))))))))))
    ∧ (∀ w, db.workspaces.find? (fun x => x.id == wid) = some w → w.owner_id = uid →
        (deleteWorkspace db wid uid f).1.success = false →
        deleteWorkspace (deleteWorkspace db wid uid f).2 wid uid noDeleteFailures
          = deleteWorkspace db wid uid noDeleteFailures) := by
  refine ⟨fun w hfind hne => ?_, fun hfalse => ?_, fun w hfind howner => ?_,
    fun w hfind howner h1 h2 => ?_, fun w hfind howner hfail => ?_⟩
  · have hbo : (w.owner_id != uid) = true := by
      simp only [bne_iff_ne]
      exact hne
    constructor <;> cases hf1 : f.fetchWorkspace <;>
      simp [deleteWorkspace, hf1, hfind, hbo, reduceIte]
  · rcases deleteWorkspace_cases_aux db wid uid f (deleteWorkspace db wid uid f).1
        (deleteWorkspace db wid uid f).2 rfl with ⟨hs, _⟩ | ⟨_, hst⟩
    · rw [hfalse] at hs
      simp at hs
    · rcases hst with h | h | h | h | h | h | h | h | ⟨h, hfe⟩
      · rw [h]
      · rw [h]; exact cascadeToFileVersions_workspaces db wid
      · rw [h]; exact cascadeToFiles_workspaces db wid
      · rw [h]; exact cascadeToChat_workspaces db wid
      · rw [h]; exact cascadeToActivity_workspaces db wid
      · rw [h]; exact cascadeToInvitations_workspaces db wid
      · rw [h]; exact cascadeToRequests_workspaces db wid
      · rw [h]; exact cascadeToCollaborators_workspaces db wid
      · rw [h]
        simp only [cleanCascade, removeWorkspaceRow]
        rw [cascadeToCollaborators_workspaces] at hfe ⊢
        exact filter_neg_of_filter_nil _ _ hfe
  · exact deleteWorkspace_clean_run db wid uid w hfind howner
  · have hbne : (w.owner_id != uid) = false := by simp [howner]
    refine ⟨fun hvc => ?_, fun hvc => ⟨fun h4 => ?_, fun h4 => ⟨fun h5 => ?_, fun h5 =>
      ⟨fun h6 => ?_, fun h6 => ⟨fun h7 => ?_, fun h7 => ⟨fun h8 => ?_, fun h8 =>
      ⟨fun h9 => ?_, fun h9 h10 => ?_⟩⟩⟩⟩⟩⟩⟩
    all_goals simp only [deleteWorkspace, hfind, hbne, h1, h2, hvc, reduceIte]
    all_goals try simp only [h4, reduceIte]
    all_goals try simp only [h5, reduceIte]
    all_goals try simp only [h6, reduceIte]
    all_goals try simp only [h7, reduceIte]
    all_goals try simp only [h8, reduceIte]
    all_goals try simp only [h9, reduceIte]
    all_goals try simp only [h10, reduceIte]
    all_goals rfl
  · have hfind7 : (cascadeToCollaborators db wid).workspaces.find? (fun x => x.id == wid)
        = some w := by
      rw [cascadeToCollaborators_workspaces]
      exact hfind
    rcases deleteWorkspace_cases_aux db wid uid f (deleteWorkspace db wid uid f).1
        (deleteWorkspace db wid uid f).2 rfl with ⟨hs, _⟩ | ⟨_, hst⟩
    · rw [hfail] at hs
      simp at hs
    · rcases hst with h | h | h | h | h | h | h | h | ⟨h, hfe⟩
      · rw [h]
      · rw [h, deleteWorkspace_clean_run (cascadeToFileVersions db wid) wid uid w
            (by rw [cascadeToFileVersions_workspaces]; exact hfind) howner,
          deleteWorkspace_clean_run db wid uid w hfind howner, cleanCascade_after_fv]
      · rw [h, deleteWorkspace_clean_run (cascadeToFiles db wid) wid uid w
            (by rw [cascadeToFiles_workspaces]; exact hfind) howner,
          deleteWorkspace_clean_run db wid uid w hfind howner, cleanCascade_after_files]
      · rw [h, deleteWorkspace_clean_run (cascadeToChat db wid) wid uid w
            (by rw [cascadeToChat_workspaces]; exact hfind) howner,
          deleteWorkspace_clean_run db wid uid w hfind howner, cleanCascade_after_chat]
      · rw [h, deleteWorkspace_clean_run (cascadeToActivity db wid) wid uid w
            (by rw [cascadeToActivity_workspaces]; exact hfind) howner,
          deleteWorkspace_clean_run db wid uid w hfind howner, cleanCascade_after_activity]
      · rw [h, deleteWorkspace_clean_run (cascadeToInvitations db wid) wid uid w
            (by rw [cascadeToInvitations_workspaces]; exact hfind) howner,
          deleteWorkspace_clean_run db wid uid w hfind howner, cleanCascade_after_invitations]
      · rw [h, deleteWorkspace_clean_run (cascadeToRequests db wid) wid uid w
            (by rw [cascadeToRequests_workspaces]; exact hfind) howner,
          deleteWorkspace_clean_run db wid uid w hfind howner, cleanCascade_after_requests]
      · rw [h, deleteWorkspace_clean_run (cascadeToCollaborators db wid) wid uid w
            hfind7 howner,
          deleteWorkspace_clean_run db wid uid w hfind howner, cleanCascade_after_collaborators]
      · have hmem7 : w ∈ (cascadeToCollaborators db wid).workspaces := by
          rw [cascadeToCollaborators_workspaces]
          exact List.mem_of_find?_eq_some hfind
        have hpw := List.find?_some hfind
        have hpw2 : (w.id == wid && w.owner_id == uid) = true := by
          simp only [Bool.and_eq_true]
          exact ⟨hpw, by simp [howner]⟩
        have hwmem : w ∈ ((cascadeToCollaborators db wid).workspaces.filter fun w2 =>
            w2.id == wid && w2.owner_id == uid) := List.mem_filter.mpr ⟨hmem7, hpw2⟩
        rw [hfe] at hwmem
        cases hwmem

/-- Witness for claim C1: deleting w1 in exDB1 as its owner u1 succeeds and
removes exactly the rows hanging off w1, while a non-owner call by u2 is
refused with the store unchanged. -/
theorem deleteWorkspace_spec_witness :
    (deleteWorkspace exDB1 "w1" "u2" noDeleteFailures).1.success = false
    ∧ (deleteWorkspace exDB1 "w1" "u2" noDeleteFailures).2 = exDB1
    ∧ deleteWorkspace exDB1 "w1" "u1" noDeleteFailures
        = (⟨true, msgDeleteSuccess⟩, cleanCascade exDB1 "w1" "u1") := by
  have h2 := deleteWorkspace_spec exDB1 "w1" "u2" noDeleteFailures
  have h1 := deleteWorkspace_spec exDB1 "w1" "u1" noDeleteFailures
  refine ⟨(h2.1 ⟨"w1", "u1"⟩ rfl (by decide)).1, (h2.1 ⟨"w1", "u1"⟩ rfl (by decide)).2,
    h1.2.2.1 ⟨"w1", "u1"⟩ rfl rfl⟩


end DocPilot
